import Mathlib

/-!
# Verification of the SIH25 chat backend (cache-aside orchestration layer)

Shallow embedding of `src/BackendHealth/src/services/chatService.js`,
`cacheService.js` and the two Mongoose schemas (`Conversation`, `Message`).

Modelling conventions:
* Timestamps (`new Date()` / Mongoose `timestamps: true`) are `Nat` values
  passed in explicitly as `now`; within one `addMessage` call every timestamp
  equals the `now` of that call, matching the source which stamps the same instant.
* `uuidv4()` and Mongo `_id` generation are modelled by fresh counters in the
  state (`uuidCount`, `idCount`), giving collision-free identifiers.
* Redis is modelled by typed association lists keyed by the exact key strings
  the source builds (`session:`/`conversation:`/`messages:` prefixes).  A
  `cacheDown` flag makes every redis call reject, modelling an unreachable
  cache; a rejected `await` propagates as a thrown exception, exactly as in
  the JS source (none of the chatService call sites wraps cache calls in
  try/catch).
* A JS thrown error (message: Conversation not found) is `Err.notFound`; a
  rejected redis promise is `Err.cacheError`.  Operations have type
  `St → Except Err α × St`: the state component is the state at the moment
  the exception escapes (mutations already performed persist).
* Saved Mongo documents carry `id := some _` and `createdAt := some _`; the
  plain `messageData` object that the source pushes into the redis window has
  neither field (`none`), mirroring that the cached copy lacks DB-assigned
  fields.
-/

namespace SIH25

/-- A multer upload as consumed by `chatService.addMessage`. -/
structure FileIn where
  originalname : String
  mimetype : String
  size : Nat
deriving DecidableEq

/-- An entry of `message.content.images` (schema `messageSchema.content.images`;
the nested `metadata.{size,mimeType}` object is flattened here). -/
structure ImageRec where
  url : String
  cloudStorageKey : String
  size : Nat
  mimeType : String
deriving DecidableEq

/-- An entry of `message.content.attachments`. -/
structure AttachRec where
  fileName : String
  url : String
  cloudStorageKey : String
  size : Nat
  mimeType : String
deriving DecidableEq

/-- Embeds `message.metadata` as built by `chatService.addMessage`. -/
structure MsgMeta where
  timestamp : Nat
  tokenCount : Nat
deriving DecidableEq

/-- A Message document (schema in `src/unnamed/part_000`).  `id`/`createdAt`
are `none` on the plain `messageData` object and `some` once saved. -/
structure Msg where
  id : Option Nat := none
  createdAt : Option Nat := none
  conversationId : Nat
  sessionId : String
  messageId : String
  role : String
  text : String
  images : List ImageRec := []
  attachments : List AttachRec := []
  metadata : MsgMeta
deriving DecidableEq

/-- A Conversation document (schema in `src/unnamed/part_000`), with the
schema defaults for `title`, `isActive` and `messageCount`. -/
structure Conv where
  id : Nat
  sessionId : String
  userId : String
  title : String := "New Conversation"
  type : String
  metadata : String := ""
  isActive : Bool := true
  lastActivity : Nat
  messageCount : Nat := 0
  createdAt : Nat
deriving DecidableEq

/-- The minimal projection `{id, sessionId, userId, type, createdAt}` that
`chatService` caches under `conversation:<sessionId>`. -/
structure CachedConv where
  id : Nat
  sessionId : String
  userId : String
  type : String
  createdAt : Nat
deriving DecidableEq

/-- The field set selected by `getUserConversations`. -/
structure ConvSummary where
  sessionId : String
  title : String
  type : String
  lastActivity : Nat
  messageCount : Nat
  createdAt : Nat
deriving DecidableEq

/-- An association-list key-value map, modelling one typed family of redis
keys. -/
abbrev KV (α : Type) := List (String × α)

def kvGet {α : Type} (m : KV α) (k : String) : Option α :=
  (m.find? (fun p => p.1 == k)).map (fun p => p.2)

def kvSet {α : Type} (m : KV α) (k : String) (v : α) : KV α :=
  (k, v) :: m.filter (fun p => p.1 != k)

def kvDel {α : Type} (m : KV α) (k : String) : KV α :=
  m.filter (fun p => p.1 != k)

/-- The global state: the Mongo store (`convs`, `msgs`), the redis keyspace
split by key family (`convCache` = `conversation:*`, `msgWindows` =
`messages:*`, `sessions` = `session:*`), a cache-health flag, and the
freshness counters. -/
structure St where
  convs : List Conv := []
  msgs : List Msg := []
  convCache : KV CachedConv := []
  msgWindows : KV (List Msg) := []
  sessions : KV String := []
  cacheDown : Bool := false
  uuidCount : Nat := 0
  idCount : Nat := 0
deriving DecidableEq

/-- Thrown failures: `notFound` is the thrown error with message Conversation
not found; `cacheError` is a rejected redis promise. -/
inductive Err
  | notFound
  | cacheError
deriving DecidableEq

def uuidStr (n : Nat) : String := "uuid-" ++ toString n

def freshUuid (s : St) : String × St :=
  (uuidStr s.uuidCount, { s with uuidCount := s.uuidCount + 1 })

def freshId (s : St) : Nat × St :=
  (s.idCount, { s with idCount := s.idCount + 1 })

def sessionKey (sid : String) : String := "session:" ++ sid
def convKey (sid : String) : String := "conversation:" ++ sid
def msgsKey (sid : String) : String := "messages:" ++ sid

/-- redis `LRANGE key 0 (count-1)` on the front of a list: for `count = 0`
the stop index `count - 1` is `-1` in JS, which redis reads as "last
element", returning the whole list. -/
def lrange0 {α : Type} (l : List α) (count : Nat) : List α :=
  if count = 0 then l else l.take count

namespace CacheService

/-- Embeds `cacheService.setSession`: `SETEX session:<sid>` (TTL not modelled). -/
def setSession (s : St) (sid data : String) : Except Err Unit × St :=
  if s.cacheDown then (.error .cacheError, s)
  else (.ok (), { s with sessions := kvSet s.sessions (sessionKey sid) data })

/-- Embeds `cacheService.getSession`: `GET session:<sid>`. -/
def getSession (s : St) (sid : String) : Except Err (Option String) × St :=
  if s.cacheDown then (.error .cacheError, s)
  else (.ok (kvGet s.sessions (sessionKey sid)), s)

/-- Embeds `cacheService.deleteSession`: `DEL session:<sid>`.  Note it touches only
the `session:` key family. -/
def deleteSession (s : St) (sid : String) : Except Err Unit × St :=
  if s.cacheDown then (.error .cacheError, s)
  else (.ok (), { s with sessions := kvDel s.sessions (sessionKey sid) })

/-- Embeds `cacheService.cacheConversation`: `SETEX conversation:<sid> 3600 json`. -/
def cacheConversation (s : St) (sid : String) (c : CachedConv) :
    Except Err Unit × St :=
  if s.cacheDown then (.error .cacheError, s)
  else (.ok (), { s with convCache := kvSet s.convCache (convKey sid) c })

/-- Embeds `cacheService.getCachedConversation`: `GET conversation:<sid>`. -/
def getCachedConversation (s : St) (sid : String) :
    Except Err (Option CachedConv) × St :=
  if s.cacheDown then (.error .cacheError, s)
  else (.ok (kvGet s.convCache (convKey sid)), s)

/-- Embeds `cacheService.addMessage`: `LPUSH messages:<sid> json`, `EXPIRE ... 3600`,
`LTRIM messages:<sid> 0 49` — semantically, cons to the front and keep the 50
most recent entries (TTL not modelled). -/
def addMessage (s : St) (sid : String) (m : Msg) : Except Err Unit × St :=
  if s.cacheDown then (.error .cacheError, s)
  else
    let w := (kvGet s.msgWindows (msgsKey sid)).getD []
    (.ok (),
      { s with msgWindows := kvSet s.msgWindows (msgsKey sid) ((m :: w).take 50) })

/-- Embeds `cacheService.getRecentMessages`: `LRANGE messages:<sid> 0 (count-1)`. -/
def getRecentMessages (s : St) (sid : String) (count : Nat) :
    Except Err (List Msg) × St :=
  if s.cacheDown then (.error .cacheError, s)
  else (.ok (lrange0 ((kvGet s.msgWindows (msgsKey sid)).getD []) count), s)

end CacheService

/-- One primitive redis command, for reasoning about what the client issues
on the wire. -/
inductive RedisCmd
  | lpush (key value : String)
  | expire (key : String) (seconds : Nat)
  | ltrim (key : String) (start stop : Nat)
deriving DecidableEq

/-- The exact sequence of primitive redis commands `cacheService.addMessage`
issues for one window update (source lines 228-232): three separate awaited
client calls, with no MULTI/EXEC transaction or script around them. -/
def cacheAddMessageCmds (sid serialized : String) : List RedisCmd :=
  [RedisCmd.lpush (msgsKey sid) serialized,
   RedisCmd.expire (msgsKey sid) 3600,
   RedisCmd.ltrim (msgsKey sid) 0 49]

/-- The chronological key of a message.  Saved documents carry
`createdAt = some t` (the sort key of the Mongo query); the cached plain
`messageData` object lacks `createdAt`, and its `metadata.timestamp` — set at
the same instant — stands in for it. -/
def chronoKey (m : Msg) : Nat := m.createdAt.getD m.metadata.timestamp

/-- Chronologically no newer than: the ascending order relation. -/
def chronoLE (a b : Msg) : Prop := chronoKey a ≤ chronoKey b

/-- Chronologically no older than: the descending sort relation of the Mongo
query `.sort({createdAt: -1})`. -/
def chronoGE (a b : Msg) : Prop := chronoKey b ≤ chronoKey a

instance : DecidableRel chronoLE := fun a b => Nat.decLe (chronoKey a) (chronoKey b)

instance : DecidableRel chronoGE := fun a b => Nat.decLe (chronoKey b) (chronoKey a)

instance : IsTotal Msg chronoGE := ⟨fun a b => Nat.le_total (chronoKey b) (chronoKey a)⟩

instance : IsTrans Msg chronoGE := ⟨fun _ _ _ h1 h2 => Nat.le_trans h2 h1⟩

/-- A list of messages in chronological ascending order (oldest first). -/
def chronoAscending (l : List Msg) : Prop := l.Pairwise chronoLE

instance (l : List Msg) : Decidable (chronoAscending l) :=
  List.instDecidablePairwise l

namespace ChatService

/-- Embeds `chatService.createConversation`. -/
def createConversation (s : St) (userId : String) (type : String)
    (metadata : String) (now : Nat) : Except Err Conv × St :=
  let p := freshUuid s
  let sessionId := p.1
  let q := freshId p.2
  let conv : Conv :=
    { id := q.1, sessionId := sessionId, userId := userId, type := type,
      metadata := metadata, lastActivity := now, createdAt := now }
  let s1 : St := { q.2 with convs := q.2.convs ++ [conv] }
  match CacheService.cacheConversation s1 sessionId
      { id := conv.id, sessionId := sessionId, userId := userId, type := type,
        createdAt := conv.createdAt } with
  | (.error e, s2) => (.error e, s2)
  | (.ok _, s2) => (.ok conv, s2)

/-- Embeds `chatService.getConversation`: cache first (the redis `get` is not
wrapped in try/catch, so a cache rejection propagates); on a cache miss,
`Conversation.findOne({sessionId, isActive: true})`, repopulating the cache
on a store hit; returns `none` (JS `null`) on a store miss. -/
def getConversation (s : St) (sid : String) :
    Except Err (Option CachedConv) × St :=
  match CacheService.getCachedConversation s sid with
  | (.error e, s1) => (.error e, s1)
  | (.ok (some c), s1) => (.ok (some c), s1)
  | (.ok none, s1) =>
    match s1.convs.find? (fun c => c.sessionId == sid && c.isActive) with
    | some dbc =>
      let c : CachedConv :=
        { id := dbc.id, sessionId := dbc.sessionId, userId := dbc.userId,
          type := dbc.type, createdAt := dbc.createdAt }
      match CacheService.cacheConversation s1 sid c with
      | (.error e, s2) => (.error e, s2)
      | (.ok _, s2) => (.ok (some c), s2)
    | none => (.ok none, s1)

/-- Result of `storageService.uploadFile` (S3 bucket/region environment
constants folded into the url prefix; the fresh uuid in the key comes from
the caller-threaded counter). -/
structure UploadResult where
  key : String
  url : String
  size : Nat
  mimeType : String
deriving DecidableEq

/-- Embeds `storageService.uploadFile(file, folder)` with the uuid counter threaded
explicitly. -/
def uploadFile (u : Nat) (folder : String) (f : FileIn) : UploadResult × Nat :=
  let key := folder ++ "/" ++ uuidStr u ++ "-" ++ f.originalname
  ({ key := key,
     url := "https://bucket.s3.region.amazonaws.com/" ++ key,
     size := f.size, mimeType := f.mimetype }, u + 1)

/-- The `for (const file of files)` loop of `chatService.addMessage`: upload
each file and route image mime types into `content.images`, the rest into
`content.attachments`. -/
def processFiles (sid : String) : List FileIn → Nat → List ImageRec →
    List AttachRec → List ImageRec × List AttachRec × Nat
  | [], u, imgs, atts => (imgs, atts, u)
  | f :: fs, u, imgs, atts =>
    let r := uploadFile u ("conversations/" ++ sid) f
    if f.mimetype.startsWith "image/" then
      processFiles sid fs r.2
        (imgs ++ [{ url := r.1.url, cloudStorageKey := r.1.key,
                    size := r.1.size, mimeType := r.1.mimeType }]) atts
    else
      processFiles sid fs r.2 imgs
        (atts ++ [{ fileName := f.originalname, url := r.1.url,
                    cloudStorageKey := r.1.key, size := r.1.size,
                    mimeType := r.1.mimeType }])

/-- Embeds `chatService.addMessage`: resolve via `getConversation` (throwing
`notFound` on `null`), build `messageData`, upload files, save the Message
(which stamps `id`/`createdAt`), push the plain `messageData` into the cache
window (unguarded await), then
`Conversation.findByIdAndUpdate(id, {lastActivity, $inc: {messageCount: 1}})`. -/
def addMessage (s : St) (sid role content : String) (files : List FileIn)
    (now : Nat) : Except Err Msg × St :=
  match getConversation s sid with
  | (.error e, s1) => (.error e, s1)
  | (.ok none, s1) => (.error .notFound, s1)
  | (.ok (some conv), s1) =>
    let p := freshUuid s1
    let messageId := p.1
    let f := processFiles sid files p.2.uuidCount [] []
    let s2 : St := { p.2 with uuidCount := f.2.2 }
    let messageData : Msg :=
      { conversationId := conv.id, sessionId := sid, messageId := messageId,
        role := role, text := content, images := f.1, attachments := f.2.1,
        metadata := { timestamp := now, tokenCount := content.length } }
    let q := freshId s2
    let message : Msg := { messageData with id := some q.1, createdAt := some now }
    let s3 : St := { q.2 with msgs := q.2.msgs ++ [message] }
    match CacheService.addMessage s3 sid messageData with
    | (.error e, s4) => (.error e, s4)
    | (.ok _, s4) =>
      let s5 : St :=
        { s4 with convs := s4.convs.map (fun c =>
            if c.id == conv.id then
              { c with lastActivity := now, messageCount := c.messageCount + 1 }
            else c) }
      (.ok message, s5)

/-- The Mongo `.sort({createdAt: -1})`: descending by the chronological key
(every stored document has `createdAt`, so the `getD` fallback of `chronoKey`
is never exercised on the store path). -/
def sortDescChrono (l : List Msg) : List Msg :=
  l.insertionSort chronoGE

/-- The store branch of `chatService.getMessages`:
`Message.find({conversationId}).sort({createdAt:-1}).skip((page-1)*limit).limit(limit)`
then `.reverse()`. -/
def getMessagesStore (s : St) (sid : String) (page limit : Nat) :
    Except Err (List Msg) × St :=
  match getConversation s sid with
  | (.error e, s1) => (.error e, s1)
  | (.ok none, s1) => (.error .notFound, s1)
  | (.ok (some conv), s1) =>
    let skip := (page - 1) * limit
    let msgs :=
      (((sortDescChrono (s1.msgs.filter (fun m => m.conversationId == conv.id))).drop
        skip).take limit)
    (.ok msgs.reverse, s1)

/-- Embeds `chatService.getMessages`: for `page === 1 && limit <= 10` try the cache
window first and return it as-is whenever non-empty; otherwise fall through
to the store branch. -/
def getMessages (s : St) (sid : String) (page limit : Nat) :
    Except Err (List Msg) × St :=
  if page = 1 ∧ limit ≤ 10 then
    match CacheService.getRecentMessages s sid limit with
    | (.error e, s1) => (.error e, s1)
    | (.ok cached, s1) =>
      if cached.length > 0 then (.ok cached, s1)
      else getMessagesStore s1 sid page limit
  else getMessagesStore s sid page limit

/-- The `.select(...)` projection of `getUserConversations`. -/
def convSummary (c : Conv) : ConvSummary :=
  { sessionId := c.sessionId, title := c.title, type := c.type,
    lastActivity := c.lastActivity, messageCount := c.messageCount,
    createdAt := c.createdAt }

/-- Embeds `chatService.getUserConversations`: filter `{userId, isActive: true}`,
sort by `lastActivity` descending, skip/limit, project. -/
def getUserConversations (s : St) (userId : String) (page limit : Nat) :
    List ConvSummary :=
  let skip := (page - 1) * limit
  ((((s.convs.filter (fun c => c.userId == userId && c.isActive)).insertionSort
      (fun a b => b.lastActivity ≤ a.lastActivity)).drop skip).take limit).map
    convSummary

/-- Embeds `chatService.deleteConversation`: `findOne({sessionId, userId})` (note:
no `isActive` filter); absent means `notFound`; otherwise
`findByIdAndUpdate(_id, {isActive: false})` and `deleteSession` (which
deletes only the `session:` cache key). -/
def deleteConversation (s : St) (sid userId : String) : Except Err Bool × St :=
  match s.convs.find? (fun c => c.sessionId == sid && c.userId == userId) with
  | none => (.error .notFound, s)
  | some conv =>
    let s1 : St :=
      { s with convs := s.convs.map (fun c =>
          if c.id == conv.id then { c with isActive := false } else c) }
    match CacheService.deleteSession s1 sid with
    | (.error e, s2) => (.error e, s2)
    | (.ok _, s2) => (.ok true, s2)

end ChatService

/-! ## Observers and auxiliary definitions used by the verification -/

/-- The cached conversation entry of a session (`conversation:<sid>`). -/
def cachedConvOf (s : St) (sid : String) : Option CachedConv :=
  kvGet s.convCache (convKey sid)

/-- The projection of a Conversation document that `getConversation` caches
and returns on its store-fallback path. -/
def projCachedConv (c : Conv) : CachedConv :=
  { id := c.id, sessionId := c.sessionId, userId := c.userId, type := c.type,
    createdAt := c.createdAt }

/-- The cache recency window of a session (`messages:<sid>`), empty when the
key is absent. -/
def windowOf (s : St) (sid : String) : List Msg :=
  (kvGet s.msgWindows (msgsKey sid)).getD []

/-- Embeds `Conversation.findOne({sessionId, isActive: true})`. -/
def findActiveConv (s : St) (sid : String) : Option Conv :=
  s.convs.find? (fun c => c.sessionId == sid && c.isActive)

/-- Embeds `Conversation.findOne({sessionId, userId})` — the lookup used by
`deleteConversation`. -/
def findOwnedConv (s : St) (sid uid : String) : Option Conv :=
  s.convs.find? (fun c => c.sessionId == sid && c.userId == uid)

/-- The `messageCount` fields of every conversation document carrying a given
`_id` (a singleton list when ids are unique). -/
def convMsgCounts (s : St) (cid : Nat) : List Nat :=
  (s.convs.filter (fun c => c.id == cid)).map (fun c => c.messageCount)

/-- The number of Message documents owned by a conversation. -/
def ownedMsgCount (s : St) (cid : Nat) : Nat :=
  (s.msgs.filter (fun m => m.conversationId == cid)).length

/-- At most one conversation document carries this `sessionId` (the schema
declares `sessionId` unique; holds in every reachable state). -/
def uniqueSession (s : St) (sid : String) : Prop :=
  (s.convs.filter (fun c => c.sessionId == sid)).length ≤ 1

instance (s : St) (sid : String) : Decidable (uniqueSession s sid) :=
  Nat.decLe _ _

def isOkE {α : Type} : Except Err α → Bool
  | .ok _ => true
  | .error _ => false

/-- The message list of a `getMessages` outcome (empty on a thrown error). -/
def extractMsgs (r : Except Err (List Msg) × St) : List Msg :=
  match r.1 with
  | .ok l => l
  | .error _ => []

/-- The conversation of a `getConversation` outcome (`none` on a thrown
error). -/
def extractConvOpt (r : Except Err (Option CachedConv) × St) : Option CachedConv :=
  match r.1 with
  | .ok o => o
  | .error _ => none

/-- A small interpreter for primitive redis commands acting on one typed
keyspace of string lists, used to relate the command trace of
`cacheService.addMessage` to its net effect. -/
def runCmd (w : KV (List String)) : RedisCmd → KV (List String)
  | .lpush k v => kvSet w k (v :: (kvGet w k).getD [])
  | .expire _ _ => w
  | .ltrim k start stop =>
    kvSet w k ((((kvGet w k).getD []).drop start).take (stop + 1 - start))

def runCmds (w : KV (List String)) (cs : List RedisCmd) : KV (List String) :=
  cs.foldl runCmd w

/-- Runs `N` sequential `chatService.addMessage` calls on one session, with the
`n`-th call (counting from 0) passing role `roleF n`, text `contentF n`,
files `filesF n` at instant `n`; stops at the first thrown error. -/
def iterAddE (sid : String) (roleF contentF : Nat → String)
    (filesF : Nat → List FileIn) : Nat → St → Except Err St
  | 0, s => .ok s
  | n + 1, s =>
    match iterAddE sid roleF contentF filesF n s with
    | .error e => .error e
    | .ok s1 =>
      match ChatService.addMessage s1 sid (roleF n) (contentF n) (filesF n) n with
      | (.ok _, s2) => .ok s2
      | (.error e, _) => .error e

/-- The invariant threaded through sequential appends: cache reachable, the
cache entry of the session resolves to conversation `cid`, whose (unique)
document has `messageCount = k`, matching the number of owned Messages. -/
def AppendInv (s : St) (sid : String) (cid k : Nat) : Prop :=
  s.cacheDown = false ∧
  (cachedConvOf s sid).map (fun c => c.id) = some cid ∧
  convMsgCounts s cid = [k] ∧
  ownedMsgCount s cid = k

instance (s : St) (sid : String) (cid k : Nat) : Decidable (AppendInv s sid cid k) := by
  unfold AppendInv
  infer_instance

/-! ## Concrete states used by counterexamples and witnesses

All are built by running the modelled operations from the empty state, so
every counterexample is exhibited on a reachable state. -/

def s0 : St := {}

/-- After `createConversation("u1", "general")`: session `uuid-0`. -/
def sA : St := (ChatService.createConversation s0 "u1" "general" "" 0).2

/-- Then `addMessage(uuid-0, user, "a")` at instant 1. -/
def sB : St := (ChatService.addMessage sA "uuid-0" "user" "a" [] 1).2

/-- Then `addMessage(uuid-0, assistant, "b")` at instant 2. -/
def sC : St := (ChatService.addMessage sB "uuid-0" "assistant" "b" [] 2).2

/-- After create followed by `deleteConversation(uuid-0, u1)`: the
conversation is soft-deleted but its cache entry survives. -/
def sDel : St := (ChatService.deleteConversation sA "uuid-0" "u1").2

/-- A store holding an active conversation of `u1`, with the cache down. -/
def stCacheDown : St :=
  { convs := [{ id := 0, sessionId := "s1", userId := "u1", type := "general",
                lastActivity := 0, createdAt := 0 }],
    cacheDown := true }

/-- A store holding an active conversation owned by `u1` (cache healthy). -/
def stOwned : St :=
  { convs := [{ id := 0, sessionId := "s1", userId := "u1", type := "general",
                lastActivity := 0, createdAt := 0 }] }

/-- A store holding an already-inactive conversation owned by `u1`. -/
def stInactiveOwned : St :=
  { convs := [{ id := 0, sessionId := "s1", userId := "u1", type := "general",
                isActive := false, lastActivity := 0, createdAt := 0 }] }

/-- A cached plain message object (no `id`/`createdAt`), as the recency
window holds them. -/
def demoMsg : Msg :=
  { conversationId := 0, sessionId := "sX", messageId := "m0", role := "user",
    text := "hi", metadata := { timestamp := 7, tokenCount := 2 } }

/-- A state whose store is empty (no conversation ever created) but whose
cache window for session `sX` is non-empty. -/
def stWindowOnly : St := { msgWindows := [(msgsKey "sX", [demoMsg])] }

/-! ## Helper lemmas -/

theorem kvGet_kvSet_self {α : Type} (m : KV α) (k : String) (v : α) :
    kvGet (kvSet m k v) k = some v := by
  simp [kvGet, kvSet, List.find?]

theorem kvSet_kvSet_self {α : Type} (m : KV α) (k : String) (v v' : α) :
    kvSet (kvSet m k v) k v' = kvSet m k v' := by
  simp [kvSet, List.filter_filter]

theorem filter_map_of_pred {α : Type} (f : α → α) (p : α → Bool)
    (h : ∀ x, p (f x) = p x) :
    ∀ l : List α, (l.map f).filter p = (l.filter p).map f := by
  intro l
  induction l with
  | nil => rfl
  | cons a t ih =>
    cases hp : p a with
    | true => simp [List.filter_cons, h a, hp, ih]
    | false => simp [List.filter_cons, h a, hp, ih]

theorem find?_map_of_pred {α : Type} (f : α → α) (p : α → Bool)
    (h : ∀ x, p (f x) = p x) :
    ∀ l : List α, (l.map f).find? p = (l.find? p).map f := by
  intro l
  induction l with
  | nil => rfl
  | cons a t ih =>
    cases hp : p a with
    | true => simp [List.find?, h a, hp]
    | false => simp [List.find?, h a, hp, ih]

theorem map_congr_mem {α β : Type} {f g : α → β} :
    ∀ {l : List α}, (∀ x ∈ l, f x = g x) → l.map f = l.map g := by
  intro l
  induction l with
  | nil => intro _; rfl
  | cons a t ih =>
    intro h
    simp only [List.map_cons, h a (List.mem_cons_self a t)]
    rw [ih (fun x hx => h x (List.mem_cons_of_mem a hx))]

/-- A non-empty list stays non-empty through `lrange0`. -/
theorem lrange0_ne_nil {α : Type} {l : List α} (h : l ≠ []) (count : Nat) :
    lrange0 l count ≠ [] := by
  cases l with
  | nil => exact absurd rfl h
  | cons a t =>
    cases count with
    | zero => simp [lrange0]
    | succ n => simp [lrange0, List.take]

/-- The elements of a `getUserConversations` page all come from active
conversation documents of that user. -/
theorem mem_getUserConversations {s : St} {uid : String} {page limit : Nat}
    {x : ConvSummary} (h : x ∈ ChatService.getUserConversations s uid page limit) :
    ∃ c, c ∈ s.convs ∧ (c.userId == uid && c.isActive) = true ∧
      x = ChatService.convSummary c := by
  unfold ChatService.getUserConversations at h
  rw [List.mem_map] at h
  obtain ⟨c, hc, hx⟩ := h
  have hc2 := (List.take_sublist _ _).subset hc
  have hc3 := (List.drop_sublist _ _).subset hc2
  have hc4 := (List.perm_insertionSort
    (fun a b : Conv => b.lastActivity ≤ a.lastActivity) _).subset hc3
  rw [List.mem_filter] at hc4
  exact ⟨c, hc4.1, hc4.2, hx.symm⟩

/-- The store page of `getMessages` is chronologically ascending. -/
theorem chronoAscending_storePage (l : List Msg) (skip limit : Nat) :
    chronoAscending ((((ChatService.sortDescChrono l).drop skip).take limit).reverse) := by
  have h1 : List.Pairwise chronoGE (ChatService.sortDescChrono l) :=
    List.sorted_insertionSort chronoGE l
  have h2 : List.Pairwise chronoGE (((ChatService.sortDescChrono l).drop skip).take limit) :=
    List.Pairwise.sublist
      ((List.take_sublist _ _).trans (List.drop_sublist _ _)) h1
  unfold chronoAscending
  rw [List.pairwise_reverse]
  exact h2

/-- Lemma: `lrange0` of the empty list is empty. -/
theorem lrange0_nil {α : Type} (count : Nat) : lrange0 ([] : List α) count = [] := by
  cases count <;> simp [lrange0]

/-- Lemma: `getMessages` serves a non-empty cache window directly for
`page = 1, limit ≤ 10`, without touching the rest of the state. -/
theorem getMessages_cache_hit {s : St} {sid : String} {limit : Nat}
    (h : s.cacheDown = false) (hw : windowOf s sid ≠ []) (hl : limit ≤ 10) :
    ChatService.getMessages s sid 1 limit =
      (.ok (lrange0 (windowOf s sid) limit), s) := by
  unfold ChatService.getMessages
  rw [if_pos ⟨rfl, hl⟩]
  have hne : lrange0 (windowOf s sid) limit ≠ [] := lrange0_ne_nil hw limit
  have hpos : 0 < (lrange0 (windowOf s sid) limit).length := List.length_pos.mpr hne
  simp only [CacheService.getRecentMessages, h, Bool.false_eq_true, if_false]
  rw [if_pos (by simpa [windowOf] using hpos)]
  rfl

/-- Any successful `getMessagesStore` outcome is the descending-sorted,
skipped, limited, reversed page of the messages of the resolved conversation —
in particular chronologically ascending. -/
theorem getMessagesStore_ok {s : St} {sid : String} {page limit : Nat}
    {msgs : List Msg} {s2 : St}
    (heq : ChatService.getMessagesStore s sid page limit = (.ok msgs, s2)) :
    chronoAscending msgs ∧
    ∃ cc, ChatService.getConversation s sid = (.ok (some cc), s2) ∧
      msgs = (((ChatService.sortDescChrono
        (s2.msgs.filter (fun m => m.conversationId == cc.id))).drop
        ((page - 1) * limit)).take limit).reverse := by
  unfold ChatService.getMessagesStore at heq
  rcases hg : ChatService.getConversation s sid with ⟨r, s1⟩
  rw [hg] at heq
  cases r with
  | error e => simp at heq
  | ok o =>
    cases o with
    | none => simp at heq
    | some cc =>
      simp only [Prod.mk.injEq] at heq
      obtain ⟨ha, hb⟩ := heq
      have hmsg := Except.ok.inj ha
      subst hb
      exact ⟨hmsg ▸ chronoAscending_storePage _ _ _, cc, rfl, hmsg.symm⟩

/-- The store path of `getMessages` is taken exactly when the cache window
cannot serve the request. -/
theorem getMessages_fallthrough {s : St} {sid : String} {page limit : Nat}
    (h : s.cacheDown = false)
    (hfall : windowOf s sid = [] ∨ ¬(page = 1 ∧ limit ≤ 10)) :
    ChatService.getMessages s sid page limit =
      ChatService.getMessagesStore s sid page limit := by
  unfold ChatService.getMessages
  rcases hfall with hw | hnp
  · by_cases hc : page = 1 ∧ limit ≤ 10
    · rw [if_pos hc]
      simp only [CacheService.getRecentMessages, h, Bool.false_eq_true, if_false]
      rw [show (kvGet s.msgWindows (msgsKey sid)).getD [] = windowOf s sid from rfl,
        hw, lrange0_nil]
      rw [if_neg (by simp)]
    · rw [if_neg hc]
  · rw [if_neg hnp]

/-- Lemma: `getConversation` with the cache down: the redis rejection propagates. -/
theorem getConversation_down {s : St} (sid : String) (h : s.cacheDown = true) :
    ChatService.getConversation s sid = (.error .cacheError, s) := by
  simp [ChatService.getConversation, CacheService.getCachedConversation, h]

/-- Lemma: `getConversation` on a cache hit returns the cached entry unchanged. -/
theorem getConversation_cache_hit {s : St} {sid : String} {cc : CachedConv}
    (h : s.cacheDown = false) (hc : cachedConvOf s sid = some cc) :
    ChatService.getConversation s sid = (.ok (some cc), s) := by
  unfold cachedConvOf at hc
  simp [ChatService.getConversation, CacheService.getCachedConversation, h, hc]

/-- Lemma: `getConversation` on a cache miss with an active store document
repopulates the cache and returns the projection. -/
theorem getConversation_store_hit {s : St} {sid : String} {c : Conv}
    (h : s.cacheDown = false) (hc : cachedConvOf s sid = none)
    (hf : findActiveConv s sid = some c) :
    ChatService.getConversation s sid =
      (.ok (some (projCachedConv c)),
       { s with convCache := kvSet s.convCache (convKey sid) (projCachedConv c) }) := by
  unfold cachedConvOf at hc
  unfold findActiveConv at hf
  simp only [ChatService.getConversation, CacheService.getCachedConversation,
    CacheService.cacheConversation, h, Bool.false_eq_true, if_false, hc, hf]
  simp [projCachedConv]

/-- Lemma: `getConversation` on a cache miss and store miss returns null without
touching the state. -/
theorem getConversation_store_miss {s : St} {sid : String}
    (h : s.cacheDown = false) (hc : cachedConvOf s sid = none)
    (hf : findActiveConv s sid = none) :
    ChatService.getConversation s sid = (.ok none, s) := by
  unfold cachedConvOf at hc
  unfold findActiveConv at hf
  simp [ChatService.getConversation, CacheService.getCachedConversation, h, hc, hf]

/-- Any two members of a list of length at most one coincide. -/
theorem mem_of_length_le_one {α : Type} {l : List α} (h : l.length ≤ 1)
    {a b : α} (ha : a ∈ l) (hb : b ∈ l) : a = b := by
  cases l with
  | nil => cases ha
  | cons x t =>
    cases t with
    | nil =>
      rw [List.mem_singleton] at ha hb
      rw [ha, hb]
    | cons y u => simp [List.length_cons] at h

/-- Lemma: `deleteConversation` on a `findOne({sessionId, userId})` hit: flips the
matched document field `isActive` and deletes only the `session:` cache key. -/
theorem deleteConversation_found {s : St} {sid uid : String} {c : Conv}
    (hf : findOwnedConv s sid uid = some c) (h : s.cacheDown = false) :
    ChatService.deleteConversation s sid uid =
      (.ok true,
        { s with
            convs := s.convs.map (fun x =>
              if x.id == c.id then { x with isActive := false } else x),
            sessions := kvDel s.sessions (sessionKey sid) }) := by
  unfold findOwnedConv at hf
  unfold ChatService.deleteConversation
  rw [hf]
  simp [CacheService.deleteSession, h]

/-- The per-conversation soft-delete update leaves the ownership predicate of
`findOne({sessionId, userId})` unchanged. -/
theorem softDelete_pred_invariant (sid uid : String) (cid : Nat) :
    ∀ x : Conv,
      (((if x.id == cid then { x with isActive := false } else x).sessionId == sid) &&
       ((if x.id == cid then { x with isActive := false } else x).userId == uid)) =
      ((x.sessionId == sid) && (x.userId == uid)) := by
  intro x
  cases hx : x.id == cid <;> simp [hx]

/-- Lemma: `addMessage` on a cache-resolved conversation: the call succeeds, the
saved message is owned by the id of the cached conversation, the Message is
appended to the store, the conversation cache is untouched, and the
conversation documents receive the `findByIdAndUpdate`
`{lastActivity, $inc: {messageCount: 1}}` update. -/
theorem addMessage_cache_hit_spec (s : St) (sid : String) (cc : CachedConv)
    (role content : String) (files : List FileIn) (now : Nat)
    (hdown : s.cacheDown = false) (hccs : cachedConvOf s sid = some cc) :
    ∃ m : Msg, m.conversationId = cc.id ∧
      (ChatService.addMessage s sid role content files now).1 = .ok m ∧
      (ChatService.addMessage s sid role content files now).2.cacheDown = false ∧
      (ChatService.addMessage s sid role content files now).2.convCache = s.convCache ∧
      (ChatService.addMessage s sid role content files now).2.msgs = s.msgs ++ [m] ∧
      (ChatService.addMessage s sid role content files now).2.convs =
        s.convs.map (fun c => if c.id == cc.id then
          { c with lastActivity := now, messageCount := c.messageCount + 1 }
        else c) := by
  have hg := getConversation_cache_hit hdown hccs
  unfold ChatService.addMessage
  rw [hg]
  simp only [CacheService.addMessage, freshUuid, freshId, hdown,
    Bool.false_eq_true, if_false]
  exact ⟨_, rfl, by trivial, by trivial, by trivial, by trivial, by trivial⟩

/-- One `addMessage` step preserves `AppendInv`, incrementing the count. -/
theorem addMessage_step {s : St} {sid : String} {cid k : Nat}
    (hinv : AppendInv s sid cid k) (role content : String)
    (files : List FileIn) (now : Nat) :
    isOkE (ChatService.addMessage s sid role content files now).1 = true ∧
    AppendInv (ChatService.addMessage s sid role content files now).2 sid cid (k + 1) := by
  obtain ⟨hdown, hcc, hcounts, howned⟩ := hinv
  obtain ⟨cc, hccs, hccid⟩ := Option.map_eq_some'.mp hcc
  subst hccid
  obtain ⟨m, hmcid, h1, h2, h3, h4, h5⟩ :=
    addMessage_cache_hit_spec s sid cc role content files now hdown hccs
  refine ⟨by rw [h1]; rfl, h2, ?_, ?_, ?_⟩
  · unfold cachedConvOf at hccs ⊢
    rw [show (ChatService.addMessage s sid role content files now).2.convCache =
      s.convCache from h3, hccs]
    rfl
  · unfold convMsgCounts at hcounts ⊢
    rw [h5,
      filter_map_of_pred _ _ (fun x => by cases hx : x.id == cc.id <;> simp [hx]),
      List.map_map]
    rcases hfl : s.convs.filter (fun c => c.id == cc.id) with _ | ⟨y, t⟩
    · rw [hfl] at hcounts
      simp at hcounts
    · rw [hfl] at hcounts
      simp only [List.map_cons] at hcounts
      have hyk : y.messageCount = k := (List.cons.inj hcounts).1
      have ht : List.map (fun c => c.messageCount) t = [] := (List.cons.inj hcounts).2
      have ht2 : t = [] := List.map_eq_nil_iff.mp ht
      subst ht2
      have hymem : y ∈ s.convs.filter (fun c => c.id == cc.id) := by
        rw [hfl]
        exact List.mem_cons_self y []
      have hyid : (y.id == cc.id) = true := (List.mem_filter.mp hymem).2
      have hyeq : y.id = cc.id := by simpa using hyid
      rw [hfl]
      simp [Function.comp, hyeq, hyk]
  · unfold ownedMsgCount at howned ⊢
    rw [h4, List.filter_append]
    simp [hmcid, howned]

/-- Unfolding one successful step of `iterAddE`. -/
theorem iterAddE_succ_ok {sid : String} {roleF contentF : Nat → String}
    {filesF : Nat → List FileIn} {n : Nat} {s s2 : St}
    (h : iterAddE sid roleF contentF filesF n s = .ok s2) :
    iterAddE sid roleF contentF filesF (n + 1) s =
      match ChatService.addMessage s2 sid (roleF n) (contentF n) (filesF n) n with
      | (.ok _, s3) => .ok s3
      | (.error e, _) => .error e := by
  simp only [iterAddE, h]

/-- Sequential appends under `AppendInv` all succeed and add `N` to the
count. -/
theorem iterAdd_inv (sid : String) (roleF contentF : Nat → String)
    (filesF : Nat → List FileIn) :
    ∀ (N : Nat) {s : St} {cid k : Nat}, AppendInv s sid cid k →
    ∃ s2, iterAddE sid roleF contentF filesF N s = .ok s2 ∧
      AppendInv s2 sid cid (k + N) := by
  intro N
  induction N with
  | zero =>
    intro s cid k h
    exact ⟨s, rfl, h⟩
  | succ n ih =>
    intro s cid k h
    obtain ⟨s2, hs2, hinv2⟩ := ih h
    obtain ⟨hok, hinv3⟩ := addMessage_step hinv2 (roleF n) (contentF n) (filesF n) n
    rcases haddm : ChatService.addMessage s2 sid (roleF n) (contentF n) (filesF n) n
      with ⟨r, s3⟩
    rw [haddm] at hok hinv3
    cases r with
    | error e => simp [isOkE] at hok
    | ok m =>
      refine ⟨s3, ?_, hinv3⟩
      rw [iterAddE_succ_ok hs2, haddm]

/-! ## Claim C4 -/

/-- Claim C4 (corrected) — counterexample: on the reachable state where the
conversation of session `uuid-0` was created and then successfully deleted,
`isActive` is `false`, yet `getConversation` still returns the conversation —
served from the cache entry that `deleteConversation` never purges — instead
of reporting `NotFound`. -/
theorem C4_counterexample :
    (ChatService.deleteConversation sA "uuid-0" "u1").1 = .ok true ∧
    sDel.convs.map (fun c => c.isActive) = [false] ∧
    extractConvOpt (ChatService.getConversation sDel "uuid-0") =
      some { id := 0, sessionId := "uuid-0", userId := "u1", type := "general",
             createdAt := 0 } :=
  ⟨rfl, rfl, rfl⟩

/-- Claim C4 (corrected): after a successful
`deleteConversation(sessionId, userId)` the field `isActive` is
`false`, `getUserConversations` excludes it, and its Messages remain in the
Store; but the cache purge deletes only the `session:` entry — the
conversation cache entry and the message window are left untouched, so a
subsequent `getConversation` still returns the conversation from cache while
the entry lives. -/
theorem C4_soft_delete (s : St) (sid uid : String) (c : Conv)
    (hf : findOwnedConv s sid uid = some c) (h : s.cacheDown = false) :
    (ChatService.deleteConversation s sid uid).1 = .ok true ∧
    { c with isActive := false } ∈ (ChatService.deleteConversation s sid uid).2.convs ∧
    (ChatService.deleteConversation s sid uid).2.msgs = s.msgs ∧
    (ChatService.deleteConversation s sid uid).2.convCache = s.convCache ∧
    (ChatService.deleteConversation s sid uid).2.msgWindows = s.msgWindows ∧
    (ChatService.deleteConversation s sid uid).2.sessions =
      kvDel s.sessions (sessionKey sid) ∧
    (uniqueSession s sid → ∀ uid2 page limit x,
      x ∈ ChatService.getUserConversations
        (ChatService.deleteConversation s sid uid).2 uid2 page limit →
      x.sessionId ≠ sid) ∧
    (∀ cc, cachedConvOf s sid = some cc →
      ChatService.getConversation (ChatService.deleteConversation s sid uid).2 sid =
        (.ok (some cc), (ChatService.deleteConversation s sid uid).2)) := by
  have h1 := deleteConversation_found hf h
  have hcmem : c ∈ s.convs := List.mem_of_find?_eq_some hf
  have hcp := List.find?_some hf
  have hcsid : (c.sessionId == sid) = true := by
    revert hcp
    cases hs : c.sessionId == sid <;> simp [hs]
  refine ⟨by rw [h1], ?_, by rw [h1], by rw [h1], by rw [h1], by rw [h1], ?_, ?_⟩
  · rw [h1]
    show _ ∈ s.convs.map _
    rw [List.mem_map]
    exact ⟨c, hcmem, by simp⟩
  · intro hu uid2 page limit x hx heq
    rw [h1] at hx
    obtain ⟨y, hy, hyp, hxy⟩ := mem_getUserConversations hx
    have hy2 : y ∈ s.convs.map (fun z =>
        if z.id == c.id then { z with isActive := false } else z) := hy
    rw [List.mem_map] at hy2
    obtain ⟨z, hz, hzy⟩ := hy2
    have hysid : y.sessionId = sid := by
      rw [hxy] at heq
      exact heq
    have hyact : y.isActive = true := by
      cases hact : y.isActive
      · rw [hact] at hyp
        simp at hyp
      · rfl
    cases hzid : z.id == c.id
    · rw [hzid] at hzy
      simp only [if_false, Bool.false_eq_true] at hzy
      have hzsid : (z.sessionId == sid) = true := by
        rw [hzy]
        simp [hysid]
      have hzc : z = c := mem_of_length_le_one hu
        (List.mem_filter.mpr ⟨hz, hzsid⟩) (List.mem_filter.mpr ⟨hcmem, hcsid⟩)
      rw [hzc] at hzid
      simp at hzid
    · rw [hzid] at hzy
      simp only [if_true] at hzy
      rw [← hzy] at hyact
      simp at hyact
  · intro cc hcc
    have hdown2 : (ChatService.deleteConversation s sid uid).2.cacheDown = false := by
      rw [h1]
      exact h
    have hcc2 : cachedConvOf (ChatService.deleteConversation s sid uid).2 sid = some cc := by
      rw [h1]
      exact hcc
    exact getConversation_cache_hit hdown2 hcc2

theorem C4_witness :
    (ChatService.deleteConversation sA "uuid-0" "u1").1 = .ok true ∧
    (ChatService.deleteConversation sA "uuid-0" "u1").2.convCache = sA.convCache ∧
    (∀ x ∈ ChatService.getUserConversations
        (ChatService.deleteConversation sA "uuid-0" "u1").2 "u1" 1 20,
      x.sessionId ≠ "uuid-0") ∧
    ChatService.getConversation (ChatService.deleteConversation sA "uuid-0" "u1").2 "uuid-0" =
      (.ok (some { id := 0, sessionId := "uuid-0", userId := "u1",
                   type := "general", createdAt := 0 }),
       (ChatService.deleteConversation sA "uuid-0" "u1").2) := by
  have t := C4_soft_delete sA "uuid-0" "u1"
    { id := 0, sessionId := "uuid-0", userId := "u1", type := "general",
      lastActivity := 0, createdAt := 0 } (by decide) rfl
  exact ⟨t.1, t.2.2.2.1,
    fun x hx => t.2.2.2.2.2.2.1 (by decide) "u1" 1 20 x hx,
    t.2.2.2.2.2.2.2
      { id := 0, sessionId := "uuid-0", userId := "u1", type := "general",
        createdAt := 0 } (by decide)⟩

/-! ## Claim C5 -/

/-- Claim C5 (confirmed): starting from a conversation whose `messageCount`
is 0 and equals its number of owned Message records (as `createConversation`
establishes), `N` sequential `addMessage` calls on its session all succeed
and leave `messageCount = N`, still equal to the number of owned Message
records — maintained by the `$inc`-by-1 delta update per append
(`messageCount := messageCount + 1` in the embedding), never by
recomputation. -/
theorem C5_message_count (s : St) (sid : String) (cid : Nat)
    (roleF contentF : Nat → String) (filesF : Nat → List FileIn) (N : Nat)
    (hinv : AppendInv s sid cid 0) :
    ∃ s2, iterAddE sid roleF contentF filesF N s = .ok s2 ∧
      convMsgCounts s2 cid = [N] ∧ ownedMsgCount s2 cid = N := by
  obtain ⟨s2, hs2, hinv2⟩ := iterAdd_inv sid roleF contentF filesF N hinv
  rw [Nat.zero_add] at hinv2
  exact ⟨s2, hs2, hinv2.2.2.1, hinv2.2.2.2⟩

theorem C5_witness :
    AppendInv sA "uuid-0" 0 0 ∧
    (∃ s2, iterAddE "uuid-0" (fun _ => "user") (fun _ => "hi") (fun _ => []) 3 sA =
        .ok s2 ∧
      convMsgCounts s2 0 = [3] ∧ ownedMsgCount s2 0 = 3) :=
  ⟨by decide,
   C5_message_count sA "uuid-0" 0 (fun _ => "user") (fun _ => "hi") (fun _ => []) 3
     (by decide)⟩

/-! ## Claim C6 -/

/-- Claim C6 (corrected) — counterexample: after create-then-delete, session
`uuid-0` has no active conversation, yet `addMessage` succeeds (resolving the
conversation from the stale cache entry) and writes to Store and Cache,
contradicting the claim that it always fails with `NotFound` and writes
nothing. -/
theorem C6_counterexample :
    findActiveConv sDel "uuid-0" = none ∧
    isOkE (ChatService.addMessage sDel "uuid-0" "user" "x" [] 5).1 = true :=
  ⟨rfl, rfl⟩

/-- Claim C6 (corrected): when the session has no cached conversation entry
and no active conversation in the Store (and the cache is reachable),
`addMessage` fails with `NotFound` and leaves the state — Store and Cache —
completely unchanged.  (With a stale cached entry the call can instead
succeed; see the counterexample.) -/
theorem C6_notfound_no_write (s : St) (sid role content : String)
    (files : List FileIn) (now : Nat) (h : s.cacheDown = false)
    (hc : cachedConvOf s sid = none) (hf : findActiveConv s sid = none) :
    ChatService.addMessage s sid role content files now = (.error .notFound, s) := by
  have hg := getConversation_store_miss h hc hf
  unfold ChatService.addMessage
  rw [hg]

theorem C6_witness :
    ChatService.addMessage s0 "nosession" "user" "x" [] 0 = (.error .notFound, s0) :=
  C6_notfound_no_write s0 "nosession" "user" "x" [] 0 rfl rfl rfl

/-! ## Claim C7 -/

/-- Claim C7 (confirmed): for every session and every number of appends, the
cache recency window holds at most 50 entries — each `cacheService.addMessage`
pushes the new message to the front and trims the list to the 50 most recent
entries, whatever the window held before. -/
theorem C7_window_bound (s : St) (sid : String) (m : Msg)
    (h : s.cacheDown = false) :
    windowOf (CacheService.addMessage s sid m).2 sid = (m :: windowOf s sid).take 50 ∧
    (windowOf (CacheService.addMessage s sid m).2 sid).length ≤ 50 := by
  have h1 : windowOf (CacheService.addMessage s sid m).2 sid =
      (m :: windowOf s sid).take 50 := by
    simp [CacheService.addMessage, h, windowOf, kvGet_kvSet_self]
  exact ⟨h1, h1 ▸ List.length_take_le _ _⟩

theorem C7_witness :
    windowOf (CacheService.addMessage s0 "sX" demoMsg).2 "sX" =
      (demoMsg :: windowOf s0 "sX").take 50 ∧
    (windowOf (CacheService.addMessage s0 "sX" demoMsg).2 "sX").length ≤ 50 :=
  C7_window_bound s0 "sX" demoMsg rfl

/-! ## Claim C8 -/

/-- Claim C8 (corrected) — counterexample: the window update of
`cacheService.addMessage` is not one single indivisible cache operation: the
client issues three separate commands (`LPUSH`, `EXPIRE`, `LTRIM`), not one. -/
theorem C8_counterexample :
    (cacheAddMessageCmds "s" "m").length = 3 ∧
    ¬ (cacheAddMessageCmds "s" "m").length = 1 := by
  exact ⟨rfl, by decide⟩

/-- Claim C8 (corrected): the cache-window update is composed client-side of
three separate sequential commands — `LPUSH`, `EXPIRE 3600`, `LTRIM 0 49` —
whose sequential net effect is the push-to-front-and-trim-to-50 update; no
single indivisible operation is used. -/
theorem C8_trace_effect (w : KV (List String)) (sid m : String) :
    runCmds w (cacheAddMessageCmds sid m) =
      kvSet w (msgsKey sid) ((m :: (kvGet w (msgsKey sid)).getD []).take 50) ∧
    (cacheAddMessageCmds sid m).length = 3 := by
  constructor
  · simp [runCmds, cacheAddMessageCmds, runCmd, List.foldl, kvGet_kvSet_self,
      kvSet_kvSet_self]
  · rfl

/-! ## Claim C9 -/

/-- Claim C9 (confirmed): whenever the cache message window of the session is
non-empty, `getMessages(sessionId, 1, limit)` with `limit ≤ 10` returns the
cached entries and leaves the state untouched — the Store is never consulted
and no active-conversation check happens, so this path never reports
`NotFound`, even when no conversation exists (or it was soft-deleted). -/
theorem C9_cache_path (s : St) (sid : String) (limit : Nat)
    (h : s.cacheDown = false) (hw : windowOf s sid ≠ []) (hl : limit ≤ 10) :
    ChatService.getMessages s sid 1 limit =
      (.ok (lrange0 (windowOf s sid) limit), s) :=
  getMessages_cache_hit h hw hl

theorem C9_witness :
    findActiveConv stWindowOnly "sX" = none ∧
    ChatService.getMessages stWindowOnly "sX" 1 5 =
      (.ok (lrange0 (windowOf stWindowOnly "sX") 5), stWindowOnly) :=
  ⟨rfl, C9_cache_path stWindowOnly "sX" 5 rfl (by decide) (by decide)⟩

/-! ## Claim C10 -/

/-- Claim C10 (confirmed): `deleteConversation` does not require the
conversation to be active — `findOne({sessionId, userId})` carries no
`isActive` filter — so after a successful delete a second call by the same
owner succeeds again (idempotently re-setting `isActive := false`) instead of
reporting `NotFound`. -/
theorem C10_delete_idempotent (s : St) (sid uid : String) (c : Conv)
    (hf : findOwnedConv s sid uid = some c) (h : s.cacheDown = false) :
    (ChatService.deleteConversation s sid uid).1 = .ok true ∧
    (ChatService.deleteConversation
      (ChatService.deleteConversation s sid uid).2 sid uid).1 = .ok true := by
  have h1 := deleteConversation_found hf h
  refine ⟨by rw [h1], ?_⟩
  rw [h1]
  have hf2 : findOwnedConv
      { s with
          convs := s.convs.map (fun x =>
            if x.id == c.id then { x with isActive := false } else x),
          sessions := kvDel s.sessions (sessionKey sid) } sid uid =
      some { c with isActive := false } := by
    unfold findOwnedConv at hf ⊢
    show (s.convs.map _).find? _ = _
    rw [find?_map_of_pred _ _ (softDelete_pred_invariant sid uid c.id), hf]
    simp
  have h2 := deleteConversation_found hf2 (by simpa using h)
  rw [h2]

/-! ## Claim C1 -/

/-- Claim C1 (corrected) — counterexample: on the reachable state with two
appended messages, `getMessages(sessionId, 1, 10)` is served from the cache
recency window and returns the messages newest-first — not in chronological
ascending order as the claim states for every source. -/
theorem C1_counterexample :
    isOkE (ChatService.getMessages sC "uuid-0" 1 10).1 = true ∧
    ¬ chronoAscending (extractMsgs (ChatService.getMessages sC "uuid-0" 1 10)) := by
  constructor
  · rfl
  · decide

/-- Claim C1 (corrected): the Store path of `getMessages` (taken when the
window is empty or `page ≠ 1` or `limit > 10`) sorts by `createdAt`
descending, skips `(page-1)*limit`, takes `limit` and reverses, so it returns
chronological ascending order; but the cache path (`page = 1`, `limit ≤ 10`,
non-empty window) returns the first `limit` window entries newest-first —
the returned order is ascending only on the Store path, not regardless of
source. -/
theorem C1_order (s : St) (sid : String) (page limit : Nat)
    (h : s.cacheDown = false) :
    (page = 1 → limit ≤ 10 → windowOf s sid ≠ [] →
      ChatService.getMessages s sid page limit =
        (.ok (lrange0 (windowOf s sid) limit), s)) ∧
    (windowOf s sid = [] ∨ ¬(page = 1 ∧ limit ≤ 10) →
      ∀ msgs s2, ChatService.getMessages s sid page limit = (.ok msgs, s2) →
        chronoAscending msgs ∧
        ∃ cc, ChatService.getConversation s sid = (.ok (some cc), s2) ∧
          msgs = (((ChatService.sortDescChrono
            (s2.msgs.filter (fun m => m.conversationId == cc.id))).drop
            ((page - 1) * limit)).take limit).reverse) := by
  constructor
  · intro hp hl hw
    subst hp
    exact getMessages_cache_hit h hw hl
  · intro hfall msgs s2 heq
    rw [getMessages_fallthrough h hfall] at heq
    exact getMessagesStore_ok heq

theorem C1_witness :
    ChatService.getMessages sC "uuid-0" 1 10 =
      (.ok (lrange0 (windowOf sC "uuid-0") 10), sC) ∧
    chronoAscending (extractMsgs (ChatService.getMessages sC "uuid-0" 1 50)) :=
  ⟨(C1_order sC "uuid-0" 1 10 rfl).1 rfl (by decide) (by decide),
   ((C1_order sC "uuid-0" 1 50 rfl).2 (Or.inr (by decide))
      (extractMsgs (ChatService.getMessages sC "uuid-0" 1 50))
      (ChatService.getMessages sC "uuid-0" 1 50).2 rfl).1⟩

/-! ## Claim C2 -/

/-- Claim C2 (corrected) — counterexample: with an active conversation `s1`
present in the Store and the cache erroring, `getConversation` does not fall
through to the Store; the cache error propagates as a thrown failure, so the
Store is never queried (first conjunct shows the Store hit existed). -/
theorem C2_counterexample :
    (findActiveConv stCacheDown "s1").isSome = true ∧
    ChatService.getConversation stCacheDown "s1" = (.error .cacheError, stCacheDown) :=
  ⟨rfl, rfl⟩

/-- Claim C2 (corrected): `getConversation` consults the cache first; only on
a cache *miss* does it query the Store filtered by `sessionId` and
`isActive = true`, repopulating the cache on a hit; it reports `NotFound`
(returns null) only on an authoritative Store miss.  A cache *error* is not
caught: it propagates as a thrown failure without consulting the Store — so
it still never produces a false `NotFound`. -/
theorem C2_cache_aside (s : St) (sid : String) :
    (s.cacheDown = true →
      ChatService.getConversation s sid = (.error .cacheError, s)) ∧
    (∀ cc, s.cacheDown = false → cachedConvOf s sid = some cc →
      ChatService.getConversation s sid = (.ok (some cc), s)) ∧
    (∀ c, s.cacheDown = false → cachedConvOf s sid = none →
      findActiveConv s sid = some c →
      ChatService.getConversation s sid =
        (.ok (some (projCachedConv c)),
         { s with convCache := kvSet s.convCache (convKey sid) (projCachedConv c) })) ∧
    (s.cacheDown = false → cachedConvOf s sid = none →
      findActiveConv s sid = none →
      ChatService.getConversation s sid = (.ok none, s)) :=
  ⟨fun h => getConversation_down sid h,
   fun _ h hc => getConversation_cache_hit h hc,
   fun _ h hc hf => getConversation_store_hit h hc hf,
   fun h hc hf => getConversation_store_miss h hc hf⟩

theorem C2_witness :
    ChatService.getConversation stCacheDown "sZ" = (.error .cacheError, stCacheDown) ∧
    ChatService.getConversation sDel "uuid-0" =
      (.ok (some { id := 0, sessionId := "uuid-0", userId := "u1",
                   type := "general", createdAt := 0 }), sDel) :=
  ⟨(C2_cache_aside stCacheDown "sZ").1 rfl,
   (C2_cache_aside sDel "uuid-0").2.1 _ rfl (by decide)⟩

/-! ## Claim C3 -/

/-- Claim C3 (corrected) — counterexample: a conversation with sessionId `s1`
exists (owned by `u1`), yet `deleteConversation("s1", "u2")` reports
`NotFound`, not a `Forbidden` distinct from `NotFound` — the code has no
ownership-mismatch error at all. -/
theorem C3_counterexample :
    (stOwned.convs.find? (fun c => c.sessionId == "s1")).isSome = true ∧
    ChatService.deleteConversation stOwned "s1" "u2" = (.error .notFound, stOwned) :=
  ⟨rfl, rfl⟩

/-- Claim C3 (corrected): `deleteConversation` looks up
`findOne({sessionId, userId})`, so it reports `NotFound` both when no
conversation with that `sessionId` exists and when the conversation exists
with a different owner (no distinct `Forbidden` outcome exists); only when
both match does it set `isActive := false`, after which no active
conversation with that `sessionId` remains. -/
theorem C3_owner_check (s : St) (sid uid : String) :
    (findOwnedConv s sid uid = none →
      ChatService.deleteConversation s sid uid = (.error .notFound, s)) ∧
    (∀ c, findOwnedConv s sid uid = some c → s.cacheDown = false →
      uniqueSession s sid →
      (ChatService.deleteConversation s sid uid).1 = .ok true ∧
      { c with isActive := false } ∈ (ChatService.deleteConversation s sid uid).2.convs ∧
      findActiveConv (ChatService.deleteConversation s sid uid).2 sid = none) := by
  constructor
  · intro hf
    unfold findOwnedConv at hf
    unfold ChatService.deleteConversation
    rw [hf]
  · intro c hf h hu
    have h1 := deleteConversation_found hf h
    have hcmem : c ∈ s.convs := List.mem_of_find?_eq_some hf
    have hcp := List.find?_some hf
    have hcsid : (c.sessionId == sid) = true := by
      revert hcp
      cases hs : c.sessionId == sid <;> simp [hs]
    refine ⟨by rw [h1], ?_, ?_⟩
    · rw [h1]
      show _ ∈ s.convs.map _
      rw [List.mem_map]
      exact ⟨c, hcmem, by simp⟩
    · rw [h1]
      unfold findActiveConv
      rw [List.find?_eq_none]
      intro x hx
      show ¬((x.sessionId == sid) && x.isActive) = true
      rw [List.mem_map] at hx
      obtain ⟨y, hy, hyx⟩ := hx
      cases hyid : y.id == c.id
      · rw [hyid] at hyx
        simp only [if_false, Bool.false_eq_true] at hyx
        subst hyx
        cases hs : y.sessionId == sid
        · simp [hs]
        · have hyc : y = c := mem_of_length_le_one hu
            (List.mem_filter.mpr ⟨hy, hs⟩) (List.mem_filter.mpr ⟨hcmem, hcsid⟩)
          rw [hyc] at hyid
          simp at hyid
      · rw [hyid] at hyx
        simp only [if_true] at hyx
        subst hyx
        simp

theorem C3_witness :
    ChatService.deleteConversation s0 "s1" "u1" = (.error .notFound, s0) ∧
    ((ChatService.deleteConversation stOwned "s1" "u1").1 = .ok true ∧
      ({ id := 0, sessionId := "s1", userId := "u1", type := "general",
         isActive := false, lastActivity := 0, createdAt := 0 } : Conv) ∈
        (ChatService.deleteConversation stOwned "s1" "u1").2.convs ∧
      findActiveConv (ChatService.deleteConversation stOwned "s1" "u1").2 "s1" = none) :=
  ⟨(C3_owner_check s0 "s1" "u1").1 rfl,
   (C3_owner_check stOwned "s1" "u1").2
     { id := 0, sessionId := "s1", userId := "u1", type := "general",
       lastActivity := 0, createdAt := 0 }
     (by decide) rfl (by decide)⟩

theorem C10_witness :
    (ChatService.deleteConversation stInactiveOwned "s1" "u1").1 = .ok true ∧
    (ChatService.deleteConversation
      (ChatService.deleteConversation stInactiveOwned "s1" "u1").2 "s1" "u1").1 = .ok true :=
  C10_delete_idempotent stInactiveOwned "s1" "u1"
    { id := 0, sessionId := "s1", userId := "u1", type := "general",
      isActive := false, lastActivity := 0, createdAt := 0 }
    (by decide) rfl

end SIH25
